import Mathlib

/-!
Verification of the sidecar remote process-execution daemon.

The definitions below are a shallow embedding of the parts of the source
driving the per-connection protocol: the bitflag sets and message types of
`messages.rs`, the child builder of `child.rs`, the connection state machine
of `server.rs` (`pass_signal`, `handle_child`, `client_session`), the signal
helpers of `system.rs`, and the SIGCHLD drain of `child_watcher.rs`.
Machine integers are modelled as `Int`/`Nat`; fallible operations return
`Option`; the effects of each routine (datagrams sent, kill syscalls issued)
are reified as explicit output lists.
-/

namespace Sidecar

/-! ## Bitflag sets (`messages.rs`, `bitflags!` over `u32`) -/

/-- `StartMode` bitflags: `PROCESS_GROUP = 1`, `SESSION = 2`,
`DETACH_TERMINAL = 4`, `NOHUP = 8`.  These four constants are the whole
set declared in `messages.rs`. -/
structure StartMode where
  bits : Nat
deriving DecidableEq

namespace StartMode

def PROCESS_GROUP : StartMode := ⟨1⟩

def SESSION : StartMode := ⟨2⟩

def DETACH_TERMINAL : StartMode := ⟨4⟩

def NOHUP : StartMode := ⟨8⟩

/-- `bitflags` union (`|` operator on flag values). -/
def union (a b : StartMode) : StartMode := ⟨a.bits ||| b.bits⟩

/-- `bitflags::contains`: every bit of the argument is present in `s`.
Note `s.contains (a.union b)` therefore requires BOTH `a` and `b`. -/
def contains (s o : StartMode) : Bool := s.bits &&& o.bits == o.bits

end StartMode

/-- `Files` bitflags: `IN = 1`, `OUT = 2`, `ERR = 4`. -/
structure Files where
  bits : Nat
deriving DecidableEq

namespace Files

def IN : Files := ⟨1⟩

def OUT : Files := ⟨2⟩

def ERR : Files := ⟨4⟩

/-- `bitflags::contains`. -/
def contains (s o : Files) : Bool := s.bits &&& o.bits == o.bits

/-- `bitflags::is_empty`. -/
def is_empty (s : Files) : Bool := s.bits == 0

/-- Number of stdio slots requested: popcount of the IN/OUT/ERR bits. -/
def popcount (s : Files) : Nat :=
  (if s.contains IN then 1 else 0) + (if s.contains OUT then 1 else 0) +
    (if s.contains ERR then 1 else 0)

end Files

/-! ## Signals (`nix::sys::signal` as used by `system.rs`) -/

/-- `Signal::from_c_int` on Linux: the classical signal numbers `1..=31`
are valid, everything else is an error (`None`). -/
def signal_from_c_int (n : Int) : Option Int :=
  if 1 ≤ n ∧ n ≤ 31 then some n else none

/-- `SIGKILL` signal number. -/
def SIGKILL : Int := 9

/-- `SIGINT` signal number. -/
def SIGINT : Int := 2

/-! ## Child builder (`child.rs`) -/

/-- The pre-exec action alphabet.  The first five constructors are the
actions `prepare`'s `pre_exec` closure can perform, in the order the code
issues them.  `set_controlling_terminal` stands for the `TIOCSCTTY` ioctl of
`tty.rs::set_controlling_terminal`; it is part of the alphabet so that
claims about it can be stated, and the theorems below settle whether
`prepare` ever emits it (in the source that function is `#[allow(dead_code)]`
and `prepare` never calls it). -/
inductive PreExec where
  | set_death_signal (sig : Int)
  | detach_terminal
  | set_process_group (pgid : Int)
  | new_session
  | nohup
  | set_controlling_terminal
deriving DecidableEq

/-- The sequence of pre-exec actions performed by the closure installed in
`child.rs::prepare`: death signal (only when `Signal::from_c_int(deathsig)`
succeeds, mirroring `.ok()`), then `DETACH_TERMINAL`, `PROCESS_GROUP`,
`SESSION`, `NOHUP` — each guarded by `startup_mode.contains`. -/
def pre_exec_actions (startup : StartMode) (deathsig : Int) (pgid : Int) :
    List PreExec :=
  (match signal_from_c_int deathsig with
    | some ds => [PreExec.set_death_signal ds]
    | none => []) ++
  (if startup.contains StartMode.DETACH_TERMINAL then [PreExec.detach_terminal]
    else []) ++
  (if startup.contains StartMode.PROCESS_GROUP then
    [PreExec.set_process_group pgid] else []) ++
  (if startup.contains StartMode.SESSION then [PreExec.new_session] else []) ++
  (if startup.contains StartMode.NOHUP then [PreExec.nohup] else [])

/-- Environment maps: variable name to value. -/
def EnvMap : Type := String → Option String

/-- `prepare`'s environment handling: when `req.env` is non-empty, each
`(k, v)` pair is applied with `Command::env(k, v)`, which inserts/overrides
that single variable in the environment the child will inherit from the
server (there is no `env_clear` call in the source).  When the list is
empty nothing is applied. -/
def prepare_env (parent : EnvMap) (env : List (String × String)) : EnvMap :=
  if env.isEmpty then parent
  else env.foldl (fun m kv => fun k => if k = kv.1 then some kv.2 else m k)
    parent

/-- Stdio assignment for the child: `some fd` means the stream is bound to a
received descriptor, `none` means it is bound to `/dev/null`. -/
structure StdioSpec where
  stdin : Option Int
  stdout : Option Int
  stderr : Option Int
deriving DecidableEq

/-- `child.rs::setup_command_streams`: consume received descriptors in
IN, OUT, ERR order; a cleared bit binds the stream to `/dev/null`.  The
source indexes `fds[i]` without a bound check — a missing descriptor is a
Rust index-out-of-bounds panic, modelled here as `none`.  On success the
result carries the number of descriptors consumed (the returned `i`). -/
def setup_command_streams (req : Files) (fds : List Int) :
    Option (StdioSpec × Nat) := do
  let s0 ← if req.contains Files.IN then do
      let fd ← fds.get? 0
      pure (some fd, 1)
    else pure (none, 0)
  let s1 ← if req.contains Files.OUT then do
      let fd ← fds.get? s0.2
      pure (some fd, s0.2 + 1)
    else pure (none, s0.2)
  let s2 ← if req.contains Files.ERR then do
      let fd ← fds.get? s1.2
      pure (some fd, s1.2 + 1)
    else pure (none, s1.2)
  pure (⟨s0.1, s1.1, s2.1⟩, s2.2)

/-- The stdio part of `child.rs::setup_command`: when `req.io` is non-empty
the streams are assigned by `setup_command_streams`, otherwise all three are
bound to `/dev/null` and zero descriptors are consumed.  Every received
descriptor past the consumed ones is wrapped in `Fd::new` and immediately
dropped, i.e. closed in the server; the second component of the result is
that list of closed descriptors.  `none` models the panic of
`setup_command_streams`. -/
def setup_command_fds (io : Files) (fds : List Int) :
    Option (StdioSpec × List Int) :=
  if io.is_empty then some (⟨none, none, none⟩, fds)
  else
    match setup_command_streams io fds with
    | some (s, numfds) => some (s, fds.drop numfds)
    | none => none

/-! ## Messages (`messages.rs`) -/

/-- `StartedProcess` reply. -/
structure StartedProcess where
  success : Bool
  message : String
  errno : Int
  pid : Int
deriving DecidableEq

/-- `ProcessResult` reply. -/
inductive ProcessResult where
  | Undefined
  | Exit (code : Int)
  | Signal (sig : Int)
deriving DecidableEq

/-! ## Connection state machine (`server.rs`) -/

/-- What a wait status decodes to via `ExitStatus::code` /
`ExitStatusExt::signal`, the two probes `child_finished` applies. -/
inductive WaitStatus where
  | exited (code : Int)
  | signaled (sig : Int)
  | unknown
deriving DecidableEq

/-- `server.rs::child_finished`: exit code wins, then termination signal,
otherwise `Undefined`. -/
def child_finished : WaitStatus → ProcessResult
  | WaitStatus.exited c => ProcessResult.Exit c
  | WaitStatus.signaled s => ProcessResult.Signal s
  | WaitStatus.unknown => ProcessResult.Undefined

/-- The signal syscall a signal-handling path performs: `killpg`, `kill`,
or nothing at all (invalid signal value, only a warning is logged). -/
inductive SigDelivery where
  | group (sig : Int)
  | process (sig : Int)
  | ignored
deriving DecidableEq

/-- `server.rs::pass_signal`: a negative wire value requests group delivery
and is negated; the value is then validated with `Signal::from_c_int`;
`killpg` is used only when the group was requested AND the connection was
flagged a process-group leader, `kill` otherwise; invalid values are logged
and ignored. -/
def pass_signal (sigval : Int) (pg_leader : Bool) : SigDelivery :=
  let send_to_group : Bool := sigval < 0
  let sv : Int := if sigval < 0 then -sigval else sigval
  match signal_from_c_int sv with
  | some sig =>
    if send_to_group && pg_leader then SigDelivery.group sig
    else SigDelivery.process sig
  | none => SigDelivery.ignored

/-- How `client_session` computes its `is_pg_leader` flag:
`exec_request.startup.contains(PROCESS_GROUP | SESSION)`. -/
def is_pg_leader (startup : StartMode) : Bool :=
  startup.contains (StartMode.PROCESS_GROUP.union StartMode.SESSION)

/-- `client_session`'s connection-loss signal:
`Signal::from_c_int(connsig).unwrap_or(SIGKILL)`. -/
def connsig_of (connsig : Int) : Int :=
  (signal_from_c_int connsig).getD SIGKILL

/-- Outcome of the `killpg` libc call, as `system.rs::killpg` matches it. -/
inductive KillpgOutcome where
  | ok
  | esrch
  | other
deriving DecidableEq

/-- Signal syscalls. -/
inductive SigCall where
  | killpg_call (pid sig : Int)
  | kill_call (pid sig : Int)
deriving DecidableEq

/-- `system.rs::killpg`: always issues `killpg`; when that fails with
`ESRCH` it falls back to `kill(pid, sig)`; any other failure is only
logged. -/
def killpg_syscalls (pid sig : Int) (res : KillpgOutcome) : List SigCall :=
  SigCall.killpg_call pid sig ::
    (match res with
      | KillpgOutcome.esrch => [SigCall.kill_call pid sig]
      | _ => [])

/-- One `sock.recv` outcome observed by `handle_child`'s select loop:
an I/O error, EOF (`Ok(0)`), or a datagram whose decode as `Signal(i32)`
either succeeds (`some v`) or fails (`none`). -/
inductive ClientRecv where
  | rerr
  | eof
  | datagram (v : Option Int)
deriving DecidableEq

/-- One resolution of `handle_child`'s `select(child, signal)`. -/
inductive Ev where
  | child_exit (st : WaitStatus)
  | child_err
  | client (r : ClientRecv)
deriving DecidableEq

/-- Observable server actions, in order: datagrams sent on the socket,
read-half shutdown, signal deliveries to the child, and the final await of
the watcher notification on the disconnect paths. -/
inductive SrvOut where
  | send_started (m : StartedProcess)
  | shutdown_read
  | send_result (r : ProcessResult)
  | deliver (d : SigDelivery)
  | await_child
  | raise_self (sig : Int)
deriving DecidableEq

/-- How a session run ends: the `Result` of `client_session`
(`ok` = `Ok(())`, `ioerr` = `Err(_)`), or `incomplete` when the supplied
event list ran out while the loop was still running. -/
inductive SessionEnd where
  | ok
  | ioerr
  | incomplete
deriving DecidableEq

/-- `server.rs::handle_child`, driven by the list of select outcomes:

* child wait error: return the error (no output);
* child exit: shutdown the read half, send the encoded `ProcessResult`, stop;
* client recv error: send `SIGKILL` to the child (group when leader), await
  the child future, stop with `Ok`;
* client EOF (`Ok(0)`): send `killsig` (the connection-loss signal) to the
  child (group when leader), await the child future, stop with `Ok`;
* client datagram: decode failure propagates as an error; a decoded
  `Signal(v)` goes through `pass_signal` and the loop re-arms the recv. -/
def handle_child (killsig : Int) (pg_leader : Bool) :
    List Ev → List SrvOut × SessionEnd
  | [] => ([], SessionEnd.incomplete)
  | Ev.child_err :: _ => ([], SessionEnd.ioerr)
  | Ev.child_exit st :: _ =>
    ([SrvOut.shutdown_read, SrvOut.send_result (child_finished st)],
      SessionEnd.ok)
  | Ev.client ClientRecv.rerr :: _ =>
    ([SrvOut.deliver
        (if pg_leader then SigDelivery.group SIGKILL
          else SigDelivery.process SIGKILL),
      SrvOut.await_child], SessionEnd.ok)
  | Ev.client ClientRecv.eof :: _ =>
    ([SrvOut.deliver
        (if pg_leader then SigDelivery.group killsig
          else SigDelivery.process killsig),
      SrvOut.await_child], SessionEnd.ok)
  | Ev.client (ClientRecv.datagram none) :: _ => ([], SessionEnd.ioerr)
  | Ev.client (ClientRecv.datagram (some v)) :: rest =>
    let d := pass_signal v pg_leader
    let r := handle_child killsig pg_leader rest
    ((match d with
      | SigDelivery.ignored => []
      | d => [SrvOut.deliver d]) ++ r.1, r.2)

/-- Result of `setup_command(..)` as `client_session` sees it. -/
inductive SpawnOutcome where
  | ok (pid : Int)
  | failed (raw_os_error : Option Int) (message : String)
deriving DecidableEq

/-- One accepted connection, as resolved input to `client_session`:
the first recv/decode may fail, the request is `Stop`, or it is `Exec`
whose body recv/decode may fail, and otherwise the spawn outcome plus the
select outcomes of the `Running` phase. -/
inductive SessionInput where
  | bad_request
  | stop
  | exec_bad_body
  | exec (spawn : SpawnOutcome) (startup : StartMode) (connsig : Int)
      (events : List Ev)
deriving DecidableEq

/-- `server.rs::client_session`.  `Stop` raises `SIGINT` in the server and
sends nothing.  A failed spawn sends a single `StartedProcess` with
`success = false`, `pid = -1` and `errno = raw_os_error().unwrap_or(-1)`,
then returns.  A successful spawn sends `StartedProcess` with
`success = true`, `errno = 0` and the child pid, then runs `handle_child`
with `connsig_of connsig` and `is_pg_leader startup`. -/
def client_session : SessionInput → List SrvOut × SessionEnd
  | SessionInput.bad_request => ([], SessionEnd.ioerr)
  | SessionInput.stop => ([SrvOut.raise_self SIGINT], SessionEnd.ok)
  | SessionInput.exec_bad_body => ([], SessionEnd.ioerr)
  | SessionInput.exec (SpawnOutcome.failed raw m) _ _ _ =>
    ([SrvOut.send_started ⟨false, m, raw.getD (-1), -1⟩], SessionEnd.ok)
  | SessionInput.exec (SpawnOutcome.ok pid) startup connsig evs =>
    let r := handle_child (connsig_of connsig) (is_pg_leader startup) evs
    (SrvOut.send_started ⟨true, "", 0, pid⟩ :: r.1, r.2)

/-- The socket datagrams among a list of server actions. -/
def datagrams (l : List SrvOut) : List SrvOut :=
  l.filter fun o =>
    match o with
    | SrvOut.send_started _ => true
    | SrvOut.send_result _ => true
    | _ => false

/-- Number of `StartedProcess` datagrams in an action list. -/
def started_count (l : List SrvOut) : Nat :=
  l.countP fun o =>
    match o with
    | SrvOut.send_started _ => true
    | _ => false

/-- Number of `ProcessResult` datagrams in an action list. -/
def result_count (l : List SrvOut) : Nat :=
  l.countP fun o =>
    match o with
    | SrvOut.send_result _ => true
    | _ => false

/-- Whether a `Running`-phase event list makes `handle_child` terminate by
observing the child's exit status (as opposed to client EOF, client error,
decode failure, wait error, or running out of events). -/
def terminates_with_exit : List Ev → Bool
  | [] => false
  | Ev.child_exit _ :: _ => true
  | Ev.child_err :: _ => false
  | Ev.client ClientRecv.rerr :: _ => false
  | Ev.client ClientRecv.eof :: _ => false
  | Ev.client (ClientRecv.datagram none) :: _ => false
  | Ev.client (ClientRecv.datagram (some _)) :: rest =>
    terminates_with_exit rest

/-! ## Child watcher (`child_watcher.rs`) -/

/-- The pid → notification-handle table (`Watchers.storage`, a `HashMap`
with unique keys; handles name the sender half of the per-child
`UnixStream` pair). -/
abbrev WatchTable : Type := List (Int × Nat)

/-- `HashMap::remove` lookup part: the value stored under `pid`, if any. -/
def table_lookup (tbl : WatchTable) (pid : Int) : Option Nat :=
  (tbl.find? fun e => e.1 == pid).map fun e => e.2

/-- `HashMap::remove` removal part: drop the (first) entry keyed `pid`. -/
def table_remove (tbl : WatchTable) (pid : Int) : WatchTable :=
  tbl.eraseP fun e => e.1 == pid

/-- `child_watcher.rs::send`: the notification written to a handle is the
raw wait status transmuted to its four little-endian bytes. -/
def status_bytes (status : Int) : List Nat :=
  [(status % 4294967296).toNat % 256,
    (status % 4294967296).toNat / 256 % 256,
    (status % 4294967296).toNat / 65536 % 256,
    (status % 4294967296).toNat / 16777216 % 256]

/-- One iteration's outcome of `waitpid(-1, &status, WNOHANG)` in the
drain loop of `child_watcher.rs::listen`: `EINTR`, `ECHILD`, no zombie
ready (`0`), or a reaped pid with its raw wait status. -/
inductive WaitRes where
  | eintr
  | echild
  | nochange
  | reaped (pid : Int) (status : Int)
deriving DecidableEq

/-- The drain loop run on one SIGCHLD delivery, fed the successive
`waitpid` outcomes: `EINTR` retries (moves to the next outcome with the
table unchanged), `ECHILD` and `0` stop the drain, and a reaped pid is
passed to `Watchers::notify`, which removes the entry and writes the
status bytes to its handle when present and drops the status silently
otherwise.  Returns the final table and the notifications delivered, in
order. -/
def drain : WatchTable → List WaitRes → WatchTable × List (Nat × List Nat)
  | tbl, [] => (tbl, [])
  | tbl, WaitRes.eintr :: rest => drain tbl rest
  | tbl, WaitRes.echild :: _ => (tbl, [])
  | tbl, WaitRes.nochange :: _ => (tbl, [])
  | tbl, WaitRes.reaped pid st :: rest =>
    match table_lookup tbl pid with
    | some h =>
      let r := drain (table_remove tbl pid) rest
      (r.1, (h, status_bytes st) :: r.2)
    | none => drain tbl rest

/-! ## Spec-side definitions

These definitions follow the words of the specification (not the source),
to be compared with the source-derived definitions above. -/

/-- Modelled from the spec (C8's claimed behaviour): «complete override
only when the field is present and non-empty; otherwise inherit».  The
child environment would then consist of exactly the request's pairs
(last occurrence of a name winning), with nothing inherited. -/
def claimed_env (parent : EnvMap) (env : List (String × String)) : EnvMap :=
  if env.isEmpty then parent
  else fun k => (env.reverse.find? fun kv => kv.1 == k).map fun kv => kv.2

/-- A sample server environment, used as a concrete parent environment. -/
def sample_parent_env : EnvMap :=
  fun k => if k = "A" then some "1" else none

/-- The deliver-prefix emitted by `handle_child` for one decoded `Signal`
datagram: one syscall output, or nothing for an invalid value. -/
def deliver_ops (d : SigDelivery) : List SrvOut :=
  match d with
  | SigDelivery.ignored => []
  | d => [SrvOut.deliver d]

/-- Position of each pre-exec action in the order `prepare` issues them
(`set_controlling_terminal` would come last; it never occurs). -/
def pre_exec_rank : PreExec → Nat
  | PreExec.set_death_signal _ => 0
  | PreExec.detach_terminal => 1
  | PreExec.set_process_group _ => 2
  | PreExec.new_session => 3
  | PreExec.nohup => 4
  | PreExec.set_controlling_terminal => 5

/-! ## Helper lemmas -/

/-- `bitflags::contains` of a two-flag union demands both flags. -/
lemma is_pg_leader_eq (s : StartMode) :
    is_pg_leader s =
      (s.contains StartMode.PROCESS_GROUP && s.contains StartMode.SESSION) := by
  have hu : StartMode.union StartMode.PROCESS_GROUP StartMode.SESSION =
      (⟨3⟩ : StartMode) := by decide
  unfold is_pg_leader
  rw [hu]
  show ((s.bits &&& 3) == 3) = ((s.bits &&& 1 == 1) && (s.bits &&& 2 == 2))
  have h3 : (3 : Nat) = 1 ||| 2 := by decide
  rw [h3, Nat.and_or_distrib_left]
  have h1 := Nat.and_two_pow s.bits 0
  have h2 := Nat.and_two_pow s.bits 1
  simp only [pow_zero, pow_one, mul_one] at h1 h2
  rw [h1, h2]
  rcases hb0 : s.bits.testBit 0 <;> rcases hb1 : s.bits.testBit 1 <;> simp

lemma signal_from_c_int_valid {n : Int} (h1 : 1 ≤ n) (h2 : n ≤ 31) :
    signal_from_c_int n = some n := by
  unfold signal_from_c_int
  rw [if_pos ⟨h1, h2⟩]

lemma signal_from_c_int_invalid {n : Int} (h : ¬(1 ≤ n ∧ n ≤ 31)) :
    signal_from_c_int n = none := by
  unfold signal_from_c_int
  rw [if_neg h]

lemma started_count_append (l1 l2 : List SrvOut) :
    started_count (l1 ++ l2) = started_count l1 + started_count l2 :=
  List.countP_append _ _ _

lemma result_count_append (l1 l2 : List SrvOut) :
    result_count (l1 ++ l2) = result_count l1 + result_count l2 :=
  List.countP_append _ _ _

lemma datagrams_append (l1 l2 : List SrvOut) :
    datagrams (l1 ++ l2) = datagrams l1 ++ datagrams l2 :=
  List.filter_append _ _

lemma handle_child_cons_datagram (k : Int) (pg : Bool) (v : Int)
    (rest : List Ev) :
    handle_child k pg (Ev.client (ClientRecv.datagram (some v)) :: rest) =
      (deliver_ops (pass_signal v pg) ++ (handle_child k pg rest).1,
        (handle_child k pg rest).2) := by
  rfl

lemma started_count_deliver_ops (d : SigDelivery) :
    started_count (deliver_ops d) = 0 := by
  cases d <;> rfl

lemma result_count_deliver_ops (d : SigDelivery) :
    result_count (deliver_ops d) = 0 := by
  cases d <;> rfl

lemma datagrams_deliver_ops (d : SigDelivery) :
    datagrams (deliver_ops d) = [] := by
  cases d <;> rfl

lemma handle_child_started_count (k : Int) (pg : Bool) (evs : List Ev) :
    started_count (handle_child k pg evs).1 = 0 := by
  induction evs with
  | nil => rfl
  | cons e rest ih =>
    cases e with
    | child_exit st => rfl
    | child_err => rfl
    | client r =>
      cases r with
      | rerr => rfl
      | eof => rfl
      | datagram v =>
        cases v with
        | none => rfl
        | some n =>
          rw [handle_child_cons_datagram, started_count_append,
            started_count_deliver_ops, ih]

lemma handle_child_result_count (k : Int) (pg : Bool) (evs : List Ev) :
    result_count (handle_child k pg evs).1 =
      if terminates_with_exit evs then 1 else 0 := by
  induction evs with
  | nil => rfl
  | cons e rest ih =>
    cases e with
    | child_exit st => rfl
    | child_err => rfl
    | client r =>
      cases r with
      | rerr => rfl
      | eof => rfl
      | datagram v =>
        cases v with
        | none => rfl
        | some n =>
          rw [handle_child_cons_datagram, result_count_append,
            result_count_deliver_ops, ih]
          simp [terminates_with_exit]

lemma handle_child_datagrams_of_exit (k : Int) (pg : Bool) (evs : List Ev)
    (h : terminates_with_exit evs = true) :
    ∃ r, datagrams (handle_child k pg evs).1 = [SrvOut.send_result r] := by
  induction evs with
  | nil => exact absurd h (by simp [terminates_with_exit])
  | cons e rest ih =>
    cases e with
    | child_exit st => exact ⟨child_finished st, rfl⟩
    | child_err => exact absurd h (by simp [terminates_with_exit])
    | client r =>
      cases r with
      | rerr => exact absurd h (by simp [terminates_with_exit])
      | eof => exact absurd h (by simp [terminates_with_exit])
      | datagram v =>
        cases v with
        | none => exact absurd h (by simp [terminates_with_exit])
        | some n =>
          have h2 : terminates_with_exit rest = true := h
          obtain ⟨r, hr⟩ := ih h2
          refine ⟨r, ?_⟩
          rw [handle_child_cons_datagram, datagrams_append,
            datagrams_deliver_ops, hr]
          rfl

lemma started_count_cons_started (m : StartedProcess) (l : List SrvOut) :
    started_count (SrvOut.send_started m :: l) = started_count l + 1 :=
  List.countP_cons_of_pos _ _ rfl

lemma result_count_cons_started (m : StartedProcess) (l : List SrvOut) :
    result_count (SrvOut.send_started m :: l) = result_count l :=
  List.countP_cons_of_neg _ _ (by simp)

lemma datagrams_cons_started (m : StartedProcess) (l : List SrvOut) :
    datagrams (SrvOut.send_started m :: l) =
      SrvOut.send_started m :: datagrams l := by
  simp [datagrams]

/-! ## Claim C1 -/

/-- C1 counterexample: after a successful spawn where the client
disconnects (EOF) before the child exits, the server-to-client datagram
sequence is `[StartedProcess(success=true)]` with no `ProcessResult`,
contradicting the claimed sequence; moreover a `Stop` connection sends no
`StartedProcess` at all. -/
theorem c1_counterexample :
    client_session
        (SessionInput.exec (SpawnOutcome.ok 100) ⟨0⟩ 9
          [Ev.client ClientRecv.eof]) =
      ([SrvOut.send_started ⟨true, "", 0, 100⟩,
        SrvOut.deliver (SigDelivery.process 9), SrvOut.await_child],
        SessionEnd.ok) ∧
    result_count
      [SrvOut.send_started ⟨true, "", 0, 100⟩,
        SrvOut.deliver (SigDelivery.process 9), SrvOut.await_child] = 0 ∧
    client_session SessionInput.stop =
      ([SrvOut.raise_self SIGINT], SessionEnd.ok) ∧
    started_count [SrvOut.raise_self SIGINT] = 0 := by
  decide

/-- C1 (amended): every connection that reaches the spawn attempt of an
Exec request gets exactly one `StartedProcess` (other connections get
none); a `ProcessResult` is sent iff the spawn succeeded AND the running
phase ends by observing the child's exit (a client EOF, client read error,
decode failure, wait error, or client disconnect before exit produces no
`ProcessResult`); and when the child's exit is observed, the full datagram
sequence is exactly `[StartedProcess(success=true, pid), ProcessResult]`. -/
theorem c1_message_discipline :
    (∀ i : SessionInput,
      started_count (client_session i).1 =
        (match i with
          | SessionInput.exec _ _ _ _ => 1
          | _ => 0) ∧
      result_count (client_session i).1 =
        (match i with
          | SessionInput.exec (SpawnOutcome.ok _) _ _ evs =>
            if terminates_with_exit evs then 1 else 0
          | _ => 0)) ∧
    (∀ (pid : Int) (s : StartMode) (cs : Int) (evs : List Ev),
      terminates_with_exit evs = true →
      ∃ r, datagrams
          (client_session
            (SessionInput.exec (SpawnOutcome.ok pid) s cs evs)).1 =
        [SrvOut.send_started ⟨true, "", 0, pid⟩, SrvOut.send_result r]) := by
  constructor
  · intro i
    cases i with
    | bad_request => exact ⟨rfl, rfl⟩
    | stop => exact ⟨rfl, rfl⟩
    | exec_bad_body => exact ⟨rfl, rfl⟩
    | exec sp s cs evs =>
      cases sp with
      | failed raw m => exact ⟨rfl, rfl⟩
      | ok pid =>
        constructor
        · show started_count (SrvOut.send_started ⟨true, "", 0, pid⟩ ::
            (handle_child (connsig_of cs) (is_pg_leader s) evs).1) = 1
          rw [started_count_cons_started, handle_child_started_count]
        · show result_count (SrvOut.send_started ⟨true, "", 0, pid⟩ ::
            (handle_child (connsig_of cs) (is_pg_leader s) evs).1) = _
          rw [result_count_cons_started, handle_child_result_count]
  · intro pid s cs evs h
    obtain ⟨r, hr⟩ :=
      handle_child_datagrams_of_exit (connsig_of cs) (is_pg_leader s) evs h
    refine ⟨r, ?_⟩
    show datagrams (SrvOut.send_started ⟨true, "", 0, pid⟩ ::
      (handle_child (connsig_of cs) (is_pg_leader s) evs).1) = _
    rw [datagrams_cons_started, hr]

/-- C1 witness: a session whose child exits with code 0 produces exactly
the two datagrams. -/
theorem c1_message_discipline_witness :
    terminates_with_exit [Ev.child_exit (WaitStatus.exited 0)] = true ∧
    ∃ r, datagrams
        (client_session (SessionInput.exec (SpawnOutcome.ok 42) ⟨0⟩ 9
          [Ev.child_exit (WaitStatus.exited 0)])).1 =
      [SrvOut.send_started ⟨true, "", 0, 42⟩, SrvOut.send_result r] := by
  refine ⟨by decide, ?_⟩
  exact c1_message_discipline.2 42 ⟨0⟩ 9
    [Ev.child_exit (WaitStatus.exited 0)] (by decide)

/-! ## Claim C2 -/

/-- C2 counterexample: the claim says a negative Signal value leads to
`killpg` whenever the startup flags contained PROCESS_GROUP or SESSION (at
least one).  With startup flags `{PROCESS_GROUP}` (bits = 1) and wire value
`-15`, the code calls `kill`, not `killpg`, because
`contains(PROCESS_GROUP | SESSION)` demands both bits.  Also, a positive
invalid value (100) leads to no kill call at all, refuting «for positive v
it always calls kill(pid, v)». -/
theorem c2_counterexample :
    pass_signal (-15) (is_pg_leader ⟨1⟩) = SigDelivery.process 15 ∧
    SigDelivery.process 15 ≠ SigDelivery.group 15 ∧
    pass_signal 100 (is_pg_leader ⟨1⟩) = SigDelivery.ignored ∧
    SigDelivery.ignored ≠ SigDelivery.process 100 := by
  decide

/-- C2 (amended): for a running child and a Signal datagram whose value is a
valid signal number, a negative value v results in `killpg(pid, -v)` exactly
when the Exec startup flags contained BOTH `PROCESS_GROUP` and `SESSION`,
and in `kill(pid, -v)` otherwise; a positive valid v always results in
`kill(pid, v)`; and a `killpg` that fails with `ESRCH` falls back to
`kill(pid)` while other `killpg` failures do not. -/
theorem c2_signal_dispatch (s : StartMode) (v p sg : Int) :
    (v < 0 → 1 ≤ -v → -v ≤ 31 →
      pass_signal v (is_pg_leader s) =
        (if s.contains StartMode.PROCESS_GROUP &&
            s.contains StartMode.SESSION
          then SigDelivery.group (-v) else SigDelivery.process (-v))) ∧
    (1 ≤ v → v ≤ 31 →
      pass_signal v (is_pg_leader s) = SigDelivery.process v) ∧
    killpg_syscalls p sg KillpgOutcome.esrch =
      [SigCall.killpg_call p sg, SigCall.kill_call p sg] ∧
    killpg_syscalls p sg KillpgOutcome.other = [SigCall.killpg_call p sg] := by
  refine ⟨?_, ?_, rfl, rfl⟩
  · intro hneg h1 h31
    unfold pass_signal
    simp only [if_pos hneg, signal_from_c_int_valid h1 h31,
      is_pg_leader_eq, hneg, decide_true_eq_true]
    simp [hneg]
    rw [signal_from_c_int_valid h1 h31]
  · intro h1 h31
    have hnn : ¬v < 0 := by omega
    unfold pass_signal
    simp only [if_neg hnn, signal_from_c_int_valid h1 h31]
    simp [hnn]

/-- C2 witness: with both flags set (bits = 3), `Signal(-15)` goes to the
group; `Signal(10)` goes to the process; `ESRCH` triggers the fallback. -/
theorem c2_signal_dispatch_witness :
    pass_signal (-15) (is_pg_leader ⟨3⟩) = SigDelivery.group 15 ∧
    pass_signal 10 (is_pg_leader ⟨3⟩) = SigDelivery.process 10 ∧
    killpg_syscalls 42 15 KillpgOutcome.esrch =
      [SigCall.killpg_call 42 15, SigCall.kill_call 42 15] := by
  have h := c2_signal_dispatch ⟨3⟩ (-15) 42 15
  have h2 := c2_signal_dispatch ⟨3⟩ 10 42 15
  refine ⟨?_, h2.2.1 (by norm_num) (by norm_num), h.2.2.1⟩
  have := h.1 (by norm_num) (by norm_num) (by norm_num)
  simpa using this

/-! ## Claim C3 -/

/-- C3 counterexample: when the failed spawn carries no OS error number,
the code sends `errno = raw_os_error().unwrap_or(-1)`, i.e. `-1`, not the
`0` the claim states. -/
theorem c3_counterexample :
    client_session
        (SessionInput.exec (SpawnOutcome.failed none "boom") ⟨0⟩ 0 []) =
      ([SrvOut.send_started ⟨false, "boom", -1, -1⟩], SessionEnd.ok) ∧
    (⟨false, "boom", -1, -1⟩ : StartedProcess) ≠ ⟨false, "boom", 0, -1⟩ := by
  exact ⟨rfl, by decide⟩

/-- C3 (amended): for every Exec request whose spawn fails, the server
sends exactly one `StartedProcess` with `success = false`, `pid = -1`, and
`errno` equal to the OS error number of the failed spawn (`-1` when no OS
error number is available), and the connection then closes without any
`ProcessResult` being sent. -/
theorem c3_failed_spawn_reply (raw : Option Int) (m : String) (s : StartMode)
    (cs : Int) (evs : List Ev) :
    client_session (SessionInput.exec (SpawnOutcome.failed raw m) s cs evs) =
      ([SrvOut.send_started
          ⟨false, m, (match raw with | some e => e | none => -1), -1⟩],
        SessionEnd.ok) ∧
    result_count
      (client_session
        (SessionInput.exec (SpawnOutcome.failed raw m) s cs evs)).1 = 0 := by
  cases raw <;> exact ⟨rfl, rfl⟩

/-! ## Claim C4 -/

/-- C4: what child setup actually does on a descriptor-count mismatch.
With `io_flags = {IN}` (popcount 1) and zero received descriptors,
`setup_command_streams` evaluates `fds[0]` on an empty slice — an
index-out-of-bounds panic, modelled as `none` — instead of any protocol
error; and with an excess descriptor the request is accepted and the extra
descriptor is merely closed, again with no rejection. -/
theorem c4_fd_mismatch_behavior :
    setup_command_streams ⟨1⟩ [] = none ∧
    setup_command_fds ⟨1⟩ [] = none ∧
    setup_command_fds ⟨1⟩ [10, 11] = some (⟨some 10, none, none⟩, [11]) := by
  decide

/-! ## Claim C5 -/

/-- C5 counterexample: the claim says a client read error behaves like EOF
(sends the request's `connsig`) apart from logging.  With `connsig = 15`
(SIGTERM) the read-error branch sends `SIGKILL` (9), not 15. -/
theorem c5_counterexample :
    handle_child 15 false [Ev.client ClientRecv.rerr] =
      ([SrvOut.deliver (SigDelivery.process SIGKILL), SrvOut.await_child],
        SessionEnd.ok) ∧
    SigDelivery.process SIGKILL ≠ SigDelivery.process 15 := by
  decide

/-- C5 (amended): while a child runs, client EOF makes the server send the
request's `connsig` (as validated, defaulting to SIGKILL) to the child —
to its group when it is flagged a group leader — then await the watcher's
exit notification and close without sending any `ProcessResult`; a client
read error does the same except that the signal sent is always `SIGKILL`,
regardless of `connsig`. -/
theorem c5_disconnect_signals (pid : Int) (s : StartMode) (cs : Int)
    (rest : List Ev) :
    client_session (SessionInput.exec (SpawnOutcome.ok pid) s cs
        (Ev.client ClientRecv.eof :: rest)) =
      ([SrvOut.send_started ⟨true, "", 0, pid⟩,
        SrvOut.deliver
          (if is_pg_leader s then SigDelivery.group (connsig_of cs)
            else SigDelivery.process (connsig_of cs)),
        SrvOut.await_child], SessionEnd.ok) ∧
    client_session (SessionInput.exec (SpawnOutcome.ok pid) s cs
        (Ev.client ClientRecv.rerr :: rest)) =
      ([SrvOut.send_started ⟨true, "", 0, pid⟩,
        SrvOut.deliver
          (if is_pg_leader s then SigDelivery.group SIGKILL
            else SigDelivery.process SIGKILL),
        SrvOut.await_child], SessionEnd.ok) :=
  ⟨rfl, rfl⟩

/-! ## Claim C6 -/

lemma setup_command_streams_eq (io : Files) (fds : List Int)
    (hlen : io.popcount ≤ fds.length) :
    setup_command_streams io fds =
      some (⟨(if io.contains Files.IN then fds[0]? else none),
        (if io.contains Files.OUT then
          fds[(if io.contains Files.IN then 1 else 0)]? else none),
        (if io.contains Files.ERR then
          fds[((if io.contains Files.IN then 1 else 0) +
            (if io.contains Files.OUT then 1 else 0))]? else none)⟩,
        io.popcount) := by
  have hget : ∀ n, n < io.popcount → ∃ a, fds[n]? = some a := by
    intro n hn
    exact ⟨_, List.getElem?_eq_getElem (lt_of_lt_of_le hn hlen)⟩
  rcases hIN : io.contains Files.IN <;>
    rcases hOUT : io.contains Files.OUT <;>
    rcases hERR : io.contains Files.ERR
  · have hp : io.popcount = 0 := by simp [Files.popcount, hIN, hOUT, hERR]
    rw [hp]
    simp [setup_command_streams, hIN, hOUT, hERR]
  · have hp : io.popcount = 1 := by simp [Files.popcount, hIN, hOUT, hERR]
    obtain ⟨a0, h0⟩ := hget 0 (by omega)
    rw [hp]
    simp [setup_command_streams, hIN, hOUT, hERR, h0]
  · have hp : io.popcount = 1 := by simp [Files.popcount, hIN, hOUT, hERR]
    obtain ⟨a0, h0⟩ := hget 0 (by omega)
    rw [hp]
    simp [setup_command_streams, hIN, hOUT, hERR, h0]
  · have hp : io.popcount = 2 := by simp [Files.popcount, hIN, hOUT, hERR]
    obtain ⟨a0, h0⟩ := hget 0 (by omega)
    obtain ⟨a1, h1⟩ := hget 1 (by omega)
    rw [hp]
    simp [setup_command_streams, hIN, hOUT, hERR, h0, h1]
  · have hp : io.popcount = 1 := by simp [Files.popcount, hIN, hOUT, hERR]
    obtain ⟨a0, h0⟩ := hget 0 (by omega)
    rw [hp]
    simp [setup_command_streams, hIN, hOUT, hERR, h0]
  · have hp : io.popcount = 2 := by simp [Files.popcount, hIN, hOUT, hERR]
    obtain ⟨a0, h0⟩ := hget 0 (by omega)
    obtain ⟨a1, h1⟩ := hget 1 (by omega)
    rw [hp]
    simp [setup_command_streams, hIN, hOUT, hERR, h0, h1]
  · have hp : io.popcount = 2 := by simp [Files.popcount, hIN, hOUT, hERR]
    obtain ⟨a0, h0⟩ := hget 0 (by omega)
    obtain ⟨a1, h1⟩ := hget 1 (by omega)
    rw [hp]
    simp [setup_command_streams, hIN, hOUT, hERR, h0, h1]
  · have hp : io.popcount = 3 := by simp [Files.popcount, hIN, hOUT, hERR]
    obtain ⟨a0, h0⟩ := hget 0 (by omega)
    obtain ⟨a1, h1⟩ := hget 1 (by omega)
    obtain ⟨a2, h2⟩ := hget 2 (by omega)
    rw [hp]
    simp [setup_command_streams, hIN, hOUT, hERR, h0, h1, h2]

/-- C6: for any `io_flags` over the IN/OUT/ERR bits and at least
`popcount(io_flags)` received descriptors, child stdio consumes
descriptors in IN, OUT, ERR order (IN takes index 0, OUT the next
unconsumed index, ERR the next), every cleared bit binds that stream to
`/dev/null` (`none`), an empty `io_flags` nulls all three streams, and
exactly the descriptors beyond the first `popcount(io_flags)` are closed
in the server. -/
theorem c6_stdio_assignment (io : Files) (fds : List Int)
    (h8 : io.bits < 8) (hlen : io.popcount ≤ fds.length) :
    setup_command_fds io fds =
      some (⟨(if io.contains Files.IN then fds[0]? else none),
        (if io.contains Files.OUT then
          fds[(if io.contains Files.IN then 1 else 0)]? else none),
        (if io.contains Files.ERR then
          fds[((if io.contains Files.IN then 1 else 0) +
            (if io.contains Files.OUT then 1 else 0))]? else none)⟩,
        fds.drop io.popcount) := by
  by_cases h0 : io.bits = 0
  · have hio : io = ⟨0⟩ := by cases io; simpa using h0
    subst hio
    simp [setup_command_fds, Files.is_empty, Files.popcount, Files.contains,
      Files.IN, Files.OUT, Files.ERR]
  · have hne : io.is_empty = false := by simp [Files.is_empty, h0]
    simp only [setup_command_fds, hne, Bool.false_eq_true, if_false,
      setup_command_streams_eq io fds hlen]

/-- C6 witness: `io_flags = {IN, ERR}` (bits 5) with three received
descriptors binds stdin to the first, stderr to the second, nulls stdout,
and closes the third. -/
theorem c6_stdio_assignment_witness :
    (⟨5⟩ : Files).bits < 8 ∧
    Files.popcount ⟨5⟩ ≤ ([10, 11, 12] : List Int).length ∧
    setup_command_fds ⟨5⟩ [10, 11, 12] =
      some (⟨some 10, none, some 11⟩, [12]) := by
  refine ⟨by decide, by decide, ?_⟩
  rw [c6_stdio_assignment ⟨5⟩ [10, 11, 12] (by decide) (by decide)]
  decide

/-! ## Claim C7 -/

/-- C7 counterexample: with every `u32` bit of `startup_flags` set —
so whatever bit the claimed fifth flag `CONTROLLING_TERMINAL` used would be
set — and `deathsig = 99` (nonzero), the pre-exec sequence contains neither
a `TIOCSCTTY` step nor a death-signal step: the `StartMode` bitset of the
code admits only the four flags `PROCESS_GROUP`, `SESSION`,
`DETACH_TERMINAL`, `NOHUP`, and a nonzero but invalid `deathsig` is
silently skipped rather than installed. -/
theorem c7_counterexample :
    pre_exec_actions ⟨4294967295⟩ 99 0 =
      [PreExec.detach_terminal, PreExec.set_process_group 0,
        PreExec.new_session, PreExec.nohup] ∧
    PreExec.set_controlling_terminal ∉
      [PreExec.detach_terminal, PreExec.set_process_group 0,
        PreExec.new_session, PreExec.nohup] ∧
    PreExec.set_death_signal 99 ∉
      [PreExec.detach_terminal, PreExec.set_process_group 0,
        PreExec.new_session, PreExec.nohup] := by
  decide

/-- C7 (amended): the forked child performs the pre-exec actions in
exactly this order before `execve`: (1) if `deathsig` is a valid signal
number, set `PR_SET_PDEATHSIG` (exiting 128 if the parent already changed);
(2) if `DETACH_TERMINAL`, issue `TIOCNOTTY`; (3) if `PROCESS_GROUP`,
`setpgid(0, pgid)`; (4) if `SESSION`, `setsid()`; (5) if `NOHUP`, ignore
`SIGHUP` — where the `startup_flags` bitset admits exactly the four flags
`PROCESS_GROUP`, `SESSION`, `DETACH_TERMINAL`, `NOHUP`, and no
`CONTROLLING_TERMINAL`/`TIOCSCTTY` step exists. -/
theorem c7_pre_exec_order (m : StartMode) (ds pg : Int) :
    (pre_exec_actions m ds pg).Pairwise
      (fun a b => pre_exec_rank a < pre_exec_rank b) ∧
    PreExec.set_controlling_terminal ∉ pre_exec_actions m ds pg ∧
    (PreExec.detach_terminal ∈ pre_exec_actions m ds pg ↔
      m.contains StartMode.DETACH_TERMINAL = true) ∧
    (∀ q, PreExec.set_process_group q ∈ pre_exec_actions m ds pg ↔
      (m.contains StartMode.PROCESS_GROUP = true ∧ q = pg)) ∧
    (PreExec.new_session ∈ pre_exec_actions m ds pg ↔
      m.contains StartMode.SESSION = true) ∧
    (PreExec.nohup ∈ pre_exec_actions m ds pg ↔
      m.contains StartMode.NOHUP = true) ∧
    (∀ q, PreExec.set_death_signal q ∈ pre_exec_actions m ds pg ↔
      signal_from_c_int ds = some q) := by
  rcases hds : signal_from_c_int ds <;>
    rcases h1 : m.contains StartMode.DETACH_TERMINAL <;>
    rcases h2 : m.contains StartMode.PROCESS_GROUP <;>
    rcases h3 : m.contains StartMode.SESSION <;>
    rcases h4 : m.contains StartMode.NOHUP <;>
    simp [pre_exec_actions, hds, h1, h2, h3, h4, pre_exec_rank,
      List.pairwise_cons, eq_comm]

/-- C7 witness: with all four real flags set and `deathsig = 9`, the
theorem instantiates; no controlling-terminal action occurs and `NOHUP`
membership tracks the flag. -/
theorem c7_pre_exec_order_witness :
    PreExec.set_controlling_terminal ∉ pre_exec_actions ⟨15⟩ 9 0 ∧
    (PreExec.nohup ∈ pre_exec_actions ⟨15⟩ 9 0 ↔
      StartMode.contains ⟨15⟩ StartMode.NOHUP = true) :=
  ⟨(c7_pre_exec_order ⟨15⟩ 9 0).2.1,
    (c7_pre_exec_order ⟨15⟩ 9 0).2.2.2.2.2.1⟩

/-! ## Claim C10 -/

/-- C10: a Signal datagram whose absolute value is not a valid signal
number results in no kill/killpg at all, and the connection continues
exactly as if the datagram had not arrived (the value is only logged). -/
theorem c10_invalid_signal_ignored (v k : Int) (pg : Bool) (rest : List Ev)
    (h : ¬(1 ≤ (if v < 0 then -v else v) ∧ (if v < 0 then -v else v) ≤ 31)) :
    pass_signal v pg = SigDelivery.ignored ∧
    handle_child k pg (Ev.client (ClientRecv.datagram (some v)) :: rest) =
      handle_child k pg rest := by
  have hp : pass_signal v pg = SigDelivery.ignored := by
    unfold pass_signal
    simp only [signal_from_c_int_invalid h]
  refine ⟨hp, ?_⟩
  rw [handle_child_cons_datagram, hp]
  rfl

/-- C10 witness: value 100 is not a valid signal; the datagram is ignored
and the loop state is unchanged. -/
theorem c10_invalid_signal_ignored_witness :
    pass_signal 100 false = SigDelivery.ignored ∧
    handle_child 9 false [Ev.client (ClientRecv.datagram (some 100))] =
      handle_child 9 false [] :=
  c10_invalid_signal_ignored 100 9 false [] (by decide)

/-! ## Claim C8 -/

lemma env_foldl_last (parent : EnvMap) (env : List (String × String))
    (k : String) :
    env.foldl (fun m kv => fun j => if j = kv.1 then some kv.2 else m j)
      parent k =
      (match env.reverse.find? (fun kv => kv.1 == k) with
        | some kv => some kv.2
        | none => parent k) := by
  induction env generalizing parent with
  | nil => rfl
  | cons kv rest ih =>
    rw [List.foldl_cons, ih, List.reverse_cons, List.find?_append]
    cases hf : rest.reverse.find? (fun e => e.1 == k) with
    | some e => simp [hf]
    | none =>
      simp only [hf, Option.none_or]
      cases he : (kv.1 == k) with
      | true =>
        have hk : k = kv.1 := (beq_iff_eq.mp he).symm
        simp [List.find?, he, hk]
      | false =>
        have hk : ¬(k = kv.1) := fun h => by simp [h] at he
        simp [List.find?, he, hk]

/-- C8 counterexample: the claim says a non-empty `env` list is a complete
override with nothing inherited.  With server environment `{A ↦ 1}` and
request `env = [(B, 2)]`, the child still sees `A = 1` (the code calls
`Command::env` per pair and never `env_clear`), while the claimed override
semantics would drop `A`. -/
theorem c8_counterexample :
    prepare_env sample_parent_env [("B", "2")] "A" = some "1" ∧
    claimed_env sample_parent_env [("B", "2")] "A" = none ∧
    some "1" ≠ (none : Option String) := by
  refine ⟨by decide, by decide, by decide⟩

/-- C8 (amended): when the request's `env` list is empty the child
inherits the server's environment unchanged; when it is non-empty the
child's environment is the server's environment overridden pointwise by
the request's `(name, value)` pairs — the last occurrence of a name wins,
and every variable not named in the request is still inherited. -/
theorem c8_env_semantics (parent : EnvMap) (env : List (String × String))
    (k : String) :
    prepare_env parent env k =
      (match env.reverse.find? (fun kv => kv.1 == k) with
        | some kv => some kv.2
        | none => parent k) := by
  unfold prepare_env
  cases henv : env with
  | nil => rfl
  | cons kv rest => simpa using env_foldl_last parent (kv :: rest) k

/-! ## Claim C9 -/

lemma table_lookup_decomp (tbl : WatchTable) (p : Int) (h : Nat)
    (hl : table_lookup tbl p = some h) :
    ∃ l1 l2, tbl = l1 ++ (p, h) :: l2 ∧ (∀ e ∈ l1, e.1 ≠ p) ∧
      table_remove tbl p = l1 ++ l2 := by
  induction tbl with
  | nil => simp [table_lookup] at hl
  | cons e rest ih =>
    rcases he : (e.1 == p) with _ | _
    · have hl2 : table_lookup rest p = some h := by
        simpa [table_lookup, List.find?, he] using hl
      obtain ⟨l1, l2, h1, h2, h3⟩ := ih hl2
      refine ⟨e :: l1, l2, by rw [List.cons_append, ← h1], ?_, ?_⟩
      · intro x hx
        rcases List.mem_cons.mp hx with hx1 | hx1
        · subst hx1
          exact fun hp => by simp [hp] at he
        · exact h2 x hx1
      · show table_remove (e :: rest) p = e :: (l1 ++ l2)
        simp [table_remove, List.eraseP_cons, he]
        exact h3
    · have hep : e.1 = p := beq_iff_eq.mp he
      have hh : e.2 = h := by
        have := hl
        simp [table_lookup, List.find?, he] at this
        exact this
      refine ⟨[], rest, ?_, by simp, ?_⟩
      · rw [List.nil_append, ← hep, ← hh]
      · simp [table_remove, List.eraseP_cons, he]

lemma drain_handles_mem (evs : List WaitRes) :
    ∀ (tbl : WatchTable) (x : Nat × List Nat),
      x ∈ (drain tbl evs).2 → x.1 ∈ tbl.map Prod.snd := by
  induction evs with
  | nil => intro tbl x hx; simp [drain] at hx
  | cons e rest ih =>
    intro tbl x hx
    cases e with
    | eintr => exact ih tbl x hx
    | echild => simp [drain] at hx
    | nochange => simp [drain] at hx
    | reaped p st =>
      cases hl : table_lookup tbl p with
      | none =>
        rw [show drain tbl (WaitRes.reaped p st :: rest) = drain tbl rest
          from by simp [drain, hl]] at hx
        exact ih tbl x hx
      | some h =>
        obtain ⟨l1, l2, heq, hne, hrem⟩ := table_lookup_decomp tbl p h hl
        rw [show drain tbl (WaitRes.reaped p st :: rest) =
            ((drain (table_remove tbl p) rest).1,
              (h, status_bytes st) :: (drain (table_remove tbl p) rest).2)
          from by simp [drain, hl]] at hx
        rcases List.mem_cons.mp hx with hx1 | hx1
        · rw [hx1, heq]
          simp
        · have hmm := ih (table_remove tbl p) x hx1
          rw [hrem, List.map_append] at hmm
          rw [heq]
          simp only [List.map_append, List.map_cons]
          rcases List.mem_append.mp hmm with hmm1 | hmm1
          · exact List.mem_append.mpr (Or.inl hmm1)
          · exact List.mem_append.mpr
              (Or.inr (List.mem_cons.mpr (Or.inr hmm1)))

lemma drain_notif_nodup (evs : List WaitRes) :
    ∀ tbl : WatchTable, (tbl.map Prod.fst).Nodup →
      (tbl.map Prod.snd).Nodup →
      ((drain tbl evs).2.map Prod.fst).Nodup := by
  induction evs with
  | nil => intro tbl _ _; simp [drain]
  | cons e rest ih =>
    intro tbl hk hh
    cases e with
    | eintr => exact ih tbl hk hh
    | echild => simp [drain]
    | nochange => simp [drain]
    | reaped p st =>
      cases hl : table_lookup tbl p with
      | none =>
        rw [show drain tbl (WaitRes.reaped p st :: rest) = drain tbl rest
          from by simp [drain, hl]]
        exact ih tbl hk hh
      | some h =>
        obtain ⟨l1, l2, heq, hne, hrem⟩ := table_lookup_decomp tbl p h hl
        rw [show drain tbl (WaitRes.reaped p st :: rest) =
            ((drain (table_remove tbl p) rest).1,
              (h, status_bytes st) :: (drain (table_remove tbl p) rest).2)
          from by simp [drain, hl]]
        have hsub : (l1 ++ l2).Sublist tbl := by
          rw [heq]
          exact List.Sublist.append_left (List.sublist_cons_self _ _) l1
        have hk2 : ((l1 ++ l2).map Prod.fst).Nodup :=
          (hk.sublist (hsub.map Prod.fst))
        have hh2 : ((l1 ++ l2).map Prod.snd).Nodup :=
          (hh.sublist (hsub.map Prod.snd))
        rw [List.map_cons]
        refine List.Nodup.cons ?_ ?_
        · intro hmem
          obtain ⟨x, hx, hxh⟩ := List.mem_map.mp hmem
          have hmm := drain_handles_mem rest (table_remove tbl p) x hx
          rw [hrem, List.map_append] at hmm
          rw [hxh] at hmm
          have hsnd : List.map Prod.snd tbl =
              List.map Prod.snd l1 ++ (h :: List.map Prod.snd l2) := by
            rw [heq]
            simp
          rw [hsnd, List.nodup_middle] at hh
          exact (List.nodup_cons.mp hh).1 (by simpa using hmm)
        · rw [← hrem] at hk2 hh2
          exact ih (table_remove tbl p) hk2 hh2

/-- C9: the watcher delivers exactly one notification — a single 4-byte
raw wait-status write — to a registered pid's handle and removes the entry
when doing so; during a SIGCHLD drain, `EINTR` retries, `ECHILD` or a `0`
return stops the drain, and a reaped pid with no registered entry is
dropped silently. -/
theorem c9_watcher_drain (tbl : WatchTable) (evs : List WaitRes)
    (p st : Int) (h : Nat) :
    drain tbl (WaitRes.eintr :: evs) = drain tbl evs ∧
    drain tbl (WaitRes.echild :: evs) = (tbl, []) ∧
    drain tbl (WaitRes.nochange :: evs) = (tbl, []) ∧
    (table_lookup tbl p = none →
      drain tbl (WaitRes.reaped p st :: evs) = drain tbl evs) ∧
    (table_lookup tbl p = some h →
      drain tbl (WaitRes.reaped p st :: evs) =
        ((drain (table_remove tbl p) evs).1,
          (h, status_bytes st) :: (drain (table_remove tbl p) evs).2)) ∧
    (status_bytes st).length = 4 ∧
    ((tbl.map Prod.fst).Nodup → (tbl.map Prod.snd).Nodup →
      ((drain tbl evs).2.map Prod.fst).Nodup) := by
  refine ⟨rfl, rfl, rfl, ?_, ?_, rfl, fun hk hh => drain_notif_nodup evs tbl hk hh⟩
  · intro hl
    simp [drain, hl]
  · intro hl
    simp [drain, hl]

/-- C9 witness: a table registering pids 5 and 7; reaping 9 is dropped
silently, reaping 5 notifies handle 0 once and removes the entry, and the
notified handles of a full drain are distinct. -/
theorem c9_watcher_drain_witness :
    drain [((5 : Int), (0 : Nat)), (7, 1)] [WaitRes.reaped 9 1] =
      drain [((5 : Int), (0 : Nat)), (7, 1)] [] ∧
    drain [((5 : Int), (0 : Nat)), (7, 1)] [WaitRes.reaped 5 256] =
      ([(7, 1)], [(0, status_bytes 256)]) ∧
    ((drain [((5 : Int), (0 : Nat)), (7, 1)]
      [WaitRes.reaped 5 256, WaitRes.reaped 7 9]).2.map Prod.fst).Nodup := by
  have t1 := c9_watcher_drain [((5 : Int), (0 : Nat)), (7, 1)] [] 9 1 0
  have t2 := c9_watcher_drain [((5 : Int), (0 : Nat)), (7, 1)] [] 5 256 0
  have t3 := c9_watcher_drain [((5 : Int), (0 : Nat)), (7, 1)]
    [WaitRes.reaped 5 256, WaitRes.reaped 7 9] 0 0 0
  refine ⟨t1.2.2.2.1 (by decide), ?_, t3.2.2.2.2.2.2 (by decide) (by decide)⟩
  rw [t2.2.2.2.2.1 (by decide)]
  decide

end Sidecar
